import Mathlib

/-!
Verification of the PDF upload service backend (`src/backend/app.py`).

The backend is a small Flask application with three routes; only
`upload_file` (POST /api/upload) and `get_config` (GET /api/config) carry
logic.  The embedding below translates that logic into pure Lean
functions.  External effects are made explicit parameters:

* the multipart file part is an `Option FilePart` (absent field, declared
  filename, full byte stream as a `List Nat` of byte values);
* the process environment is an `Env` record of the four AWS variables,
  each `Option String` (`none` = unset);
* `uuid.uuid4()` is a string parameter;
* the outcome of `s3_client.upload_fileobj` is a `PutOutcome` parameter
  (success, `NoCredentialsError`, `ClientError` with its error code, or
  any other exception with its message), and the outcome of
  `generate_presigned_url` is a `PresignOutcome` parameter (a url, or an
  exception with its message);
* an exception raised in the region covered only by the outer
  `try/except` (e.g. by the request object or the stream operations) is
  modelled by an `Option String` fault parameter carrying its message.

The handler returns both its JSON response and, when the put call was
invoked, a record of the exact arguments passed to `upload_fileobj`, so
that properties about the stored object's key and metadata are statable.
-/

/-- Truthiness of an optional environment string, as Python evaluates
`os.getenv(...)` in a boolean context: `None` and `""` are falsy. -/
def pyTruthy : Option String → Bool
  | none => false
  | some s => s != ""

/-- Python's `c in s` for a single character `c`: membership of the
character in the string. -/
def pyIn (c : Char) (s : String) : Bool := s.data.contains c

/-- Python's `str.split()` with no separator on a list of characters:
runs of whitespace separate the words, no empty words are produced.
`cur` accumulates the current word in reverse. -/
def wordsAux : List Char → List Char → List (List Char)
  | [], cur => if cur.isEmpty then [] else [cur.reverse]
  | c :: rest, cur =>
    if c.isWhitespace then
      if cur.isEmpty then wordsAux rest []
      else cur.reverse :: wordsAux rest []
    else wordsAux rest (c :: cur)

/-- Python's `s.split()` on a string. -/
def pySplit (s : String) : List String := (wordsAux s.data []).map String.mk

/-- The configured maximum upload size: `MAX_FILE_SIZE = 50 * 1024 * 1024`. -/
def MAX_FILE_SIZE : Nat := 50 * 1024 * 1024

/-- The allowed extension set: `ALLOWED_EXTENSIONS = {'pdf'}`. -/
def ALLOWED_EXTENSIONS : List String := ["pdf"]

/-- Python's `filename.rsplit('.', 1)[1]` under the guard that a `'.'` is
present: the part of the string after the last `'.'`. -/
def extPart (filename : String) : String :=
  String.mk ((filename.data.reverse.takeWhile (fun c => c ≠ '.')).reverse)

/-- Python's `str.lower()`, character by character (ASCII case mapping). -/
def pyLower (s : String) : String := String.mk (s.data.map Char.toLower)

/-- The check `allowed_file`: the filename contains a `'.'` and the lowercased part
after the last `'.'` (Python's `filename.rsplit('.', 1)[1].lower()`) is an
allowed extension. -/
def allowed_file (filename : String) : Bool :=
  pyIn '.' filename && ALLOWED_EXTENSIONS.contains (pyLower (extPart filename))

/-- The four bytes `b'%PDF'`. -/
def pdfMagic : List Nat := [37, 80, 68, 70]

/-- The check `is_pdf_file`: seek to the start, read (up to) 4 bytes, seek back, and
compare with `b'%PDF'`.  On the byte-list model the two seeks are
position bookkeeping with no observable effect, and `read(4)` is
`take 4`. -/
def is_pdf_file (content : List Nat) : Bool := content.take 4 == pdfMagic

/-- The process environment: the four AWS variables read by the backend.
`none` models an unset variable. -/
structure Env where
  AWS_ACCESS_KEY_ID : Option String
  AWS_SECRET_ACCESS_KEY : Option String
  AWS_S3_BUCKET : Option String
  AWS_REGION : Option String

/-- The region-string normalization inside `get_s3_client`:
`aws_region = os.getenv('AWS_REGION', 'us-east-1')`, and when the string
contains both `'('` and `')'` it is replaced by `aws_region.split()[-1]`,
the last whitespace-delimited token.  `none` models the `IndexError` of
`[-1]` on an empty split, which the surrounding `except` turns into a
`None` client. -/
def resolveRegion (regionVar : Option String) : Option String :=
  let aws_region := regionVar.getD "us-east-1"
  if pyIn '(' aws_region && pyIn ')' aws_region then
    (pySplit aws_region).getLast?
  else some aws_region

/-- The constructor `get_s3_client`: builds the boto3 client from the environment.  The
client is represented by its normalized region string (the credential
arguments are passed through unvalidated by `boto3.client`); `none`
models the `except` branch returning `None`. -/
def get_s3_client (env : Env) : Option String := resolveRegion env.AWS_REGION

/-- Model of `werkzeug.utils.secure_filename` on a POSIX system
(`os.sep = '/'`, `os.path.altsep = None`, `os.name != 'nt'`): drop
non-ASCII characters (the NFKD normalization step is modelled as the
identity, which it is on ASCII input), replace the path separator by a
space, join the whitespace-split words with `'_'`, delete every character
outside `[A-Za-z0-9_.-]`, and strip leading and trailing `'.'`/`'_'`. -/
def secure_filename (filename : String) : String :=
  let ascii := filename.data.filter (fun c => c.toNat ≤ 127)
  let replaced := ascii.map (fun c => if c = '/' then ' ' else c)
  let joined := List.intercalate ['_'] (wordsAux replaced [])
  let kept := joined.filter (fun c => c.isAlphanum || c = '_' || c = '.' || c = '-')
  String.mk (((kept.dropWhile (fun c => c = '.' || c = '_')).reverse.dropWhile
    (fun c => c = '.' || c = '_')).reverse)

/-- The `file` part of the multipart request: its declared filename and
its byte stream. -/
structure FilePart where
  filename : String
  content : List Nat

/-- Outcome of the `s3_client.upload_fileobj` call. -/
inductive PutOutcome where
  | success
  | noCredentialsError
  | clientError (code : String)
  | exc (msg : String)

/-- True exactly when the put call completed without error. -/
def PutOutcome.isSuccess : PutOutcome → Bool
  | .success => true
  | _ => false

/-- Outcome of the `generate_presigned_url` call. -/
inductive PresignOutcome where
  | ok (url : String)
  | exc (msg : String)

/-- A JSON response of the backend: either an error body
`{'error': msg}` with its HTTP status, or the success body of
`upload_file` with status 200. -/
inductive Resp where
  | err (msg : String) (status : Nat)
  | ok (message filename s3_key : String) (presigned_url : Option String)
      (file_size : Nat)

/-- The HTTP status of a response. -/
def Resp.statusOf : Resp → Nat
  | .err _ s => s
  | .ok _ _ _ _ _ => 200

/-- The `s3_key` field of a response: present exactly on the success
body. -/
def Resp.s3Key : Resp → Option String
  | .err _ _ => none
  | .ok _ _ k _ _ => some k

/-- The `filename` field of a response: present exactly on the success
body. -/
def Resp.filenameField : Resp → Option String
  | .err _ _ => none
  | .ok _ f _ _ _ => some f

/-- The arguments the handler passes to `s3_client.upload_fileobj`:
bucket, key, fixed content type, and the two metadata entries. -/
structure PutRequest where
  bucket : String
  key : String
  contentType : String
  meta_original_filename : String
  meta_file_size : String

/-- The handler's observable outcome: its JSON response together with
the put request it issued, if it reached the upload step. -/
structure HandlerOut where
  resp : Resp
  putReq : Option PutRequest

/-- The 413 error handler `file_too_large`, installed for the
transport-level `MAX_CONTENT_LENGTH` cap. -/
def file_too_large : Resp :=
  .err ("File size exceeds " ++ toString (MAX_FILE_SIZE / (1024 * 1024))
    ++ "MB limit") 413

/-- The handler `upload_file` for POST /api/upload, translated branch for
branch from `src/backend/app.py`.  `fault` injects an exception (with its
message) raised in the region covered only by the outer `try/except`;
`uuid` is the string form of `uuid.uuid4()`; `put` and `presign` are the
outcomes of the two store calls. -/
def upload_file (fault : Option String) (filePart : Option FilePart)
    (env : Env) (uuid : String) (put : PutOutcome)
    (presign : PresignOutcome) : HandlerOut :=
  match fault with
  | some m => ⟨.err ("Server error: " ++ m) 500, none⟩
  | none =>
    match filePart with
    | none => ⟨.err "No file provided" 400, none⟩
    | some file =>
      if file.filename = "" then ⟨.err "No file selected" 400, none⟩
      else if !allowed_file file.filename then
        ⟨.err "Only PDF files are allowed" 400, none⟩
      else if !is_pdf_file file.content then
        ⟨.err "File is not a valid PDF" 400, none⟩
      else
        let file_size := file.content.length
        if file_size > MAX_FILE_SIZE then
          ⟨.err ("File size exceeds "
            ++ toString (MAX_FILE_SIZE / (1024 * 1024)) ++ "MB limit") 400,
            none⟩
        else
          match env.AWS_S3_BUCKET with
          | none => ⟨.err "S3 bucket not configured" 500, none⟩
          | some bucket_name =>
            if bucket_name = "" then ⟨.err "S3 bucket not configured" 500, none⟩
            else
              match get_s3_client env with
              | none => ⟨.err "Failed to initialize S3 client" 500, none⟩
              | some _client =>
                if file.filename = "" then ⟨.err "Invalid filename" 400, none⟩
                else
                  let original_filename := secure_filename file.filename
                  let s3_key := "pdfs/" ++ uuid ++ "_" ++ original_filename
                  let preq : PutRequest :=
                    ⟨bucket_name, s3_key, "application/pdf",
                      original_filename, toString file_size⟩
                  match put with
                  | .success =>
                    let presigned_url :=
                      match presign with
                      | .ok url => some url
                      | .exc _ => none
                    ⟨.ok "File uploaded successfully" original_filename
                      s3_key presigned_url file_size, some preq⟩
                  | .noCredentialsError =>
                    ⟨.err "AWS credentials not found" 500, some preq⟩
                  | .clientError code =>
                    if code = "NoSuchBucket" then
                      ⟨.err "S3 bucket does not exist" 500, some preq⟩
                    else ⟨.err ("S3 error: " ++ code) 500, some preq⟩
                  | .exc m =>
                    ⟨.err ("Upload failed: " ++ m) 500, some preq⟩

/-- The `details` object of GET /api/config. -/
structure ConfigDetails where
  aws_access_key : Bool
  aws_secret_key : Bool
  aws_bucket : Bool
  aws_region : String

/-- The response of GET /api/config. -/
structure ConfigResp where
  configured : Bool
  details : ConfigDetails

/-- The handler `get_config` for GET /api/config.  `config_status` is a dict
of three booleans and the resolved region string, and `configured` is
`all(config_status.values())`: the conjunction of the truthiness of all
four values, the region string included. -/
def get_config (env : Env) : ConfigResp :=
  let a := pyTruthy env.AWS_ACCESS_KEY_ID
  let s := pyTruthy env.AWS_SECRET_ACCESS_KEY
  let b := pyTruthy env.AWS_S3_BUCKET
  let r := env.AWS_REGION.getD "us-east-1"
  ⟨a && s && b && (r != ""), ⟨a, s, b, r⟩⟩

theorem wordsAux_ne_nil_of_cur_ne_nil (cs : List Char) (cur : List Char)
    (h : cur ≠ []) : wordsAux cs cur ≠ [] := by
  induction cs generalizing cur with
  | nil => simp [wordsAux, List.isEmpty_iff, h]
  | cons c rest ih =>
    unfold wordsAux
    by_cases hw : c.isWhitespace
    · simp [hw, List.isEmpty_iff, h]
    · simp only [hw, if_false, Bool.false_eq_true]
      exact ih (c :: cur) (by simp)

theorem wordsAux_ne_nil_of_mem (cs : List Char) (cur : List Char) (c : Char)
    (hc : c ∈ cs) (hw : c.isWhitespace = false) : wordsAux cs cur ≠ [] := by
  induction cs generalizing cur with
  | nil => cases hc
  | cons d rest ih =>
    unfold wordsAux
    by_cases hd : d.isWhitespace
    · have hcr : c ∈ rest := by
        rcases List.mem_cons.mp hc with h | h
        · exact absurd (h ▸ hd) (by simp [hw])
        · exact h
      by_cases hcur : cur.isEmpty
      · simp only [hd, hcur, if_true]
        exact ih [] hcr
      · simp [hd, hcur]
    · simp only [hd, if_false, Bool.false_eq_true]
      exact wordsAux_ne_nil_of_cur_ne_nil rest (d :: cur) (by simp)

theorem resolveRegion_isSome (o : Option String) :
    ∃ r, resolveRegion o = some r := by
  unfold resolveRegion
  by_cases h : pyIn '(' (o.getD "us-east-1") && pyIn ')' (o.getD "us-east-1")
  · simp only [h, if_true]
    have hmem : '(' ∈ (o.getD "us-east-1").data := by
      have := (Bool.and_eq_true _ _).mp h |>.1
      simpa [pyIn, List.contains] using this
    have hne : pySplit (o.getD "us-east-1") ≠ [] := by
      unfold pySplit
      simp only [ne_eq, List.map_eq_nil_iff]
      exact wordsAux_ne_nil_of_mem _ [] '(' hmem (by decide)
    have := List.getLast?_isSome.mpr hne
    obtain ⟨r, hr⟩ := Option.isSome_iff_exists.mp this
    exact ⟨r, by simp [hr]⟩
  · exact ⟨o.getD "us-east-1", by simp [h]⟩

theorem wordsAux_all_nonws (cs : List Char) (cur : List Char) (h1 : cs ≠ [])
    (h2 : ∀ c ∈ cs, c.isWhitespace = false) :
    wordsAux cs cur = [cur.reverse ++ cs] := by
  induction cs generalizing cur with
  | nil => exact absurd rfl h1
  | cons c rest ih =>
    unfold wordsAux
    have hc := h2 c (List.mem_cons_self c rest)
    simp only [hc, if_false, Bool.false_eq_true]
    by_cases hr : rest = []
    · subst hr
      simp [wordsAux, List.isEmpty_iff]
    · rw [ih (c :: cur) hr (fun d hd => h2 d (List.mem_cons_of_mem c hd))]
      simp

theorem getLast?_cons_of_getLast?_eq_some {α : Type} {l : List α} {a b : α}
    (h : l.getLast? = some b) : (a :: l).getLast? = some b := by
  cases l with
  | nil => simp at h
  | cons c t => rw [List.getLast?_cons_cons]; exact h

theorem wordsAux_append_last (d cs cur : List Char) (h1 : cs ≠ [])
    (h2 : ∀ c ∈ cs, c.isWhitespace = false) :
    (wordsAux (d ++ ' ' :: cs) cur).getLast? = some cs := by
  induction d generalizing cur with
  | nil =>
    simp only [List.nil_append]
    unfold wordsAux
    simp only [show (' ' : Char).isWhitespace = true by decide, if_true]
    rw [wordsAux_all_nonws cs [] h1 h2]
    by_cases hcur : cur.isEmpty <;> simp [hcur]
  | cons c d ih =>
    simp only [List.cons_append]
    unfold wordsAux
    by_cases hw : c.isWhitespace
    · by_cases hcur : cur.isEmpty <;> simp only [hw, hcur, if_true, if_false]
      · exact ih []
      · exact getLast?_cons_of_getLast?_eq_some (ih [])
    · simp only [hw, if_false, Bool.false_eq_true]
      exact ih (c :: cur)

/-- C1: a storage key appears in the handler's response exactly when the
put call was reached and completed without error; in particular no
validation or upload failure issues a key, and a presign failure after a
successful put still does. -/
theorem s3_key_iff_put_success (fault : Option String) (filePart : Option FilePart)
    (env : Env) (uuid : String) (put : PutOutcome) (presign : PresignOutcome) :
    ((upload_file fault filePart env uuid put presign).resp.s3Key).isSome
      = ((upload_file fault filePart env uuid put presign).putReq.isSome
          && put.isSuccess) := by
  simp only [upload_file]
  repeat' split
  all_goals rfl

/-- C2: the handler is total at its boundary: every outcome is a
structured JSON response with status 200, 400 or 500, and an exception
raised in the region covered only by the outer handler is wrapped into
the generic server error carrying the original message. -/
theorem handler_total_and_wraps :
    (∀ (fault : Option String) (filePart : Option FilePart) (env : Env)
        (uuid : String) (put : PutOutcome) (presign : PresignOutcome),
      (upload_file fault filePart env uuid put presign).resp.statusOf = 200
      ∨ (upload_file fault filePart env uuid put presign).resp.statusOf = 400
      ∨ (upload_file fault filePart env uuid put presign).resp.statusOf = 500)
    ∧ (∀ (m : String) (filePart : Option FilePart) (env : Env)
        (uuid : String) (put : PutOutcome) (presign : PresignOutcome),
      upload_file (some m) filePart env uuid put presign
        = ⟨.err ("Server error: " ++ m) 500, none⟩) := by
  constructor
  · intro fault filePart env uuid put presign
    simp only [upload_file]
    repeat' split
    all_goals simp [Resp.statusOf]
  · intro m filePart env uuid put presign
    rfl

/-- C4 counterexample: with the three variables set but AWS_REGION set to
the empty string, every presence flag is true yet `configured` is false,
so `configured` is not the conjunction of the three flags. -/
theorem config_configured_not_and_of_flags :
    ¬ ((get_config ⟨some "k", some "s", some "b", some ""⟩).configured
        = ((get_config ⟨some "k", some "s", some "b", some ""⟩).details.aws_access_key
          && (get_config ⟨some "k", some "s", some "b", some ""⟩).details.aws_secret_key
          && (get_config ⟨some "k", some "s", some "b", some ""⟩).details.aws_bucket)) := by
  decide

/-- C4 amended: the details are the three presence flags plus the
resolved region string, and `configured` is the conjunction of the three
flags AND the truthiness of the region string (Python's `all` ranges over
all four dict values). -/
theorem config_status_shape (env : Env) :
    (get_config env).details.aws_access_key = pyTruthy env.AWS_ACCESS_KEY_ID
    ∧ (get_config env).details.aws_secret_key = pyTruthy env.AWS_SECRET_ACCESS_KEY
    ∧ (get_config env).details.aws_bucket = pyTruthy env.AWS_S3_BUCKET
    ∧ (get_config env).details.aws_region = env.AWS_REGION.getD "us-east-1"
    ∧ (get_config env).configured
        = ((get_config env).details.aws_access_key
          && (get_config env).details.aws_secret_key
          && (get_config env).details.aws_bucket
          && ((get_config env).details.aws_region != "")) := by
  exact ⟨rfl, rfl, rfl, rfl, rfl⟩

/-- C9: a region string containing a parenthesized description followed
by a code is normalized to its last whitespace-delimited token; a string
without both parentheses passes through unchanged; an absent region
resolves to us-east-1. -/
theorem region_normalization :
    (∀ desc code : String,
      pyIn '(' desc = true → pyIn ')' desc = true → code ≠ "" →
      code.data.all (fun c => !c.isWhitespace) = true →
      resolveRegion (some (desc ++ " " ++ code)) = some code)
    ∧ (∀ r : String, (pyIn '(' r && pyIn ')' r) = false →
        resolveRegion (some r) = some r)
    ∧ resolveRegion none = some "us-east-1" := by
  refine ⟨?_, ?_, by decide⟩
  · intro desc code h1 h2 hne hall
    have hd : (desc ++ " " ++ code).data = desc.data ++ ' ' :: code.data := by
      simp [String.data_append]
    have hcne : code.data ≠ [] := by
      intro h
      exact hne (String.ext (h.trans rfl))
    have hnonws : ∀ c ∈ code.data, c.isWhitespace = false := by
      intro c hc
      have := (List.all_eq_true.mp hall) c hc
      simpa using this
    have hp1 : pyIn '(' (desc ++ " " ++ code) = true := by
      simp only [pyIn, List.contains] at h1 ⊢
      rw [hd]
      simp only [List.elem_eq_mem, decide_eq_true_eq] at h1 ⊢
      exact List.mem_append.mpr (Or.inl h1)
    have hp2 : pyIn ')' (desc ++ " " ++ code) = true := by
      simp only [pyIn, List.contains] at h2 ⊢
      rw [hd]
      simp only [List.elem_eq_mem, decide_eq_true_eq] at h2 ⊢
      exact List.mem_append.mpr (Or.inl h2)
    unfold resolveRegion
    simp only [Option.getD_some, hp1, hp2, Bool.and_self, if_true]
    unfold pySplit
    rw [hd, List.getLast?_map, wordsAux_append_last desc.data code.data [] hcne hnonws]
    rfl
  · intro r h
    unfold resolveRegion
    simp [h]

theorem region_normalization_witness :
    pyIn '(' "US East (Ohio)" = true
    ∧ pyIn ')' "US East (Ohio)" = true
    ∧ ("us-east-2" : String) ≠ ""
    ∧ "us-east-2".data.all (fun c => !c.isWhitespace) = true
    ∧ resolveRegion (some ("US East (Ohio)" ++ " " ++ "us-east-2"))
        = some "us-east-2"
    ∧ (pyIn '(' "eu-west-1" && pyIn ')' "eu-west-1") = false
    ∧ resolveRegion (some "eu-west-1") = some "eu-west-1" :=
  ⟨by decide, by decide, by decide, by decide,
    region_normalization.1 "US East (Ohio)" "us-east-2"
      (by decide) (by decide) (by decide) (by decide),
    by decide,
    region_normalization.2.1 "eu-west-1" (by decide)⟩

/-- C5: a request whose file part is present with a non-empty filename
that has no dot, or whose lowercased suffix after the last dot is not
pdf, is rejected as UnsupportedType regardless of the stream content. -/
theorem non_pdf_extension_rejected (file : FilePart) (env : Env) (uuid : String)
    (put : PutOutcome) (presign : PresignOutcome)
    (hname : file.filename ≠ "")
    (hext : pyIn '.' file.filename = false
      ∨ pyLower (extPart file.filename) ≠ "pdf") :
    upload_file none (some file) env uuid put presign
      = ⟨.err "Only PDF files are allowed" 400, none⟩ := by
  have hall : allowed_file file.filename = false := by
    unfold allowed_file ALLOWED_EXTENSIONS
    rcases hext with h | h
    · simp [h]
    · simp [h]
  simp [upload_file, hname, hall]

theorem non_pdf_extension_rejected_witness :
    ("a.txt" : String) ≠ ""
    ∧ pyLower (extPart "a.txt") ≠ "pdf"
    ∧ upload_file none (some ⟨"a.txt", [37, 80, 68, 70]⟩)
        ⟨none, none, none, none⟩ "uuid-1" .success (.ok "url")
        = ⟨.err "Only PDF files are allowed" 400, none⟩ :=
  ⟨by decide, by decide,
    non_pdf_extension_rejected ⟨"a.txt", [37, 80, 68, 70]⟩
      ⟨none, none, none, none⟩ "uuid-1" .success (.ok "url")
      (by decide) (Or.inr (by decide))⟩

/-- C6: a request passing the extension check whose first four stream
bytes are not %PDF is rejected as InvalidContent before the size check,
key derivation or upload. -/
theorem invalid_content_rejected (file : FilePart) (env : Env) (uuid : String)
    (put : PutOutcome) (presign : PresignOutcome)
    (hname : file.filename ≠ "")
    (hext : allowed_file file.filename = true)
    (hmagic : file.content.take 4 ≠ pdfMagic) :
    upload_file none (some file) env uuid put presign
      = ⟨.err "File is not a valid PDF" 400, none⟩ := by
  have hpdf : is_pdf_file file.content = false := by
    unfold is_pdf_file
    simpa using hmagic
  simp [upload_file, hname, hext, hpdf]

theorem invalid_content_rejected_witness :
    ("fake.pdf" : String) ≠ ""
    ∧ allowed_file "fake.pdf" = true
    ∧ ([1, 2, 3, 4, 5] : List Nat).take 4 ≠ pdfMagic
    ∧ upload_file none (some ⟨"fake.pdf", [1, 2, 3, 4, 5]⟩)
        ⟨none, none, none, none⟩ "uuid-2" .success (.ok "url")
        = ⟨.err "File is not a valid PDF" 400, none⟩ :=
  ⟨by decide, by decide, by decide,
    invalid_content_rejected ⟨"fake.pdf", [1, 2, 3, 4, 5]⟩
      ⟨none, none, none, none⟩ "uuid-2" .success (.ok "url")
      (by decide) (by decide) (by decide)⟩

/-- C7: a valid PDF stream longer than the configured maximum is rejected
as TooLarge, and the limit reported in the message is the configured
maximum in MiB, which is 50. -/
theorem too_large_rejected (file : FilePart) (env : Env) (uuid : String)
    (put : PutOutcome) (presign : PresignOutcome)
    (hname : file.filename ≠ "")
    (hext : allowed_file file.filename = true)
    (hmagic : file.content.take 4 = pdfMagic)
    (hsize : file.content.length > MAX_FILE_SIZE) :
    upload_file none (some file) env uuid put presign
      = ⟨.err ("File size exceeds "
          ++ toString (MAX_FILE_SIZE / (1024 * 1024)) ++ "MB limit") 400, none⟩
    ∧ MAX_FILE_SIZE / (1024 * 1024) = 50
    ∧ MAX_FILE_SIZE = 50 * 1024 * 1024 := by
  have hpdf : is_pdf_file file.content = true := by
    unfold is_pdf_file
    simp [hmagic]
  refine ⟨?_, by decide, rfl⟩
  simp [upload_file, hname, hext, hpdf, hsize]

theorem too_large_rejected_witness :
    ("big.pdf" : String) ≠ ""
    ∧ allowed_file "big.pdf" = true
    ∧ (pdfMagic ++ List.replicate MAX_FILE_SIZE 0).take 4 = pdfMagic
    ∧ (pdfMagic ++ List.replicate MAX_FILE_SIZE 0).length > MAX_FILE_SIZE
    ∧ upload_file none (some ⟨"big.pdf", pdfMagic ++ List.replicate MAX_FILE_SIZE 0⟩)
        ⟨none, none, none, none⟩ "uuid-3" .success (.ok "url")
        = ⟨.err ("File size exceeds "
            ++ toString (MAX_FILE_SIZE / (1024 * 1024)) ++ "MB limit") 400, none⟩ := by
  have htake : (pdfMagic ++ List.replicate MAX_FILE_SIZE 0).take 4 = pdfMagic := by
    rw [show (4 : Nat) = pdfMagic.length from rfl]
    exact List.take_left pdfMagic _
  have hlen : (pdfMagic ++ List.replicate MAX_FILE_SIZE 0).length > MAX_FILE_SIZE := by
    rw [List.length_append, List.length_replicate]
    exact Nat.lt_add_of_pos_left (by decide)
  exact ⟨by decide, by decide, htake, hlen,
    (too_large_rejected ⟨"big.pdf", pdfMagic ++ List.replicate MAX_FILE_SIZE 0⟩
      ⟨none, none, none, none⟩ "uuid-3" .success (.ok "url")
      (by decide) (by decide) htake hlen).1⟩

/-- C8: when the put succeeds and presigned-URL generation throws, the
handler still returns the success body, with a null URL and the other
fields populated. -/
theorem presign_failure_nonfatal (file : FilePart) (env : Env)
    (uuid m bucket : String)
    (hname : file.filename ≠ "")
    (hext : allowed_file file.filename = true)
    (hmagic : is_pdf_file file.content = true)
    (hsize : file.content.length ≤ MAX_FILE_SIZE)
    (hbucket : env.AWS_S3_BUCKET = some bucket)
    (hbne : bucket ≠ "") :
    upload_file none (some file) env uuid .success (.exc m)
      = ⟨.ok "File uploaded successfully" (secure_filename file.filename)
          ("pdfs/" ++ uuid ++ "_" ++ secure_filename file.filename) none
          file.content.length,
        some ⟨bucket, "pdfs/" ++ uuid ++ "_" ++ secure_filename file.filename,
          "application/pdf", secure_filename file.filename,
          toString file.content.length⟩⟩ := by
  obtain ⟨r, hr⟩ := resolveRegion_isSome env.AWS_REGION
  have hsize2 : ¬ file.content.length > MAX_FILE_SIZE := by omega
  simp [upload_file, hname, hext, hmagic, hsize2, hbucket, hbne,
    get_s3_client, hr]

theorem presign_failure_nonfatal_witness :
    ("a.pdf" : String) ≠ ""
    ∧ allowed_file "a.pdf" = true
    ∧ is_pdf_file [37, 80, 68, 70, 9, 9, 9, 9, 9, 9] = true
    ∧ ([37, 80, 68, 70, 9, 9, 9, 9, 9, 9] : List Nat).length ≤ MAX_FILE_SIZE
    ∧ (Env.mk (some "key") (some "secret") (some "bkt") none).AWS_S3_BUCKET
        = some "bkt"
    ∧ ("bkt" : String) ≠ ""
    ∧ upload_file none (some ⟨"a.pdf", [37, 80, 68, 70, 9, 9, 9, 9, 9, 9]⟩)
        ⟨some "key", some "secret", some "bkt", none⟩ "uuid-4" .success
        (.exc "presign boom")
        = ⟨.ok "File uploaded successfully" "a.pdf" "pdfs/uuid-4_a.pdf" none 10,
          some ⟨"bkt", "pdfs/uuid-4_a.pdf", "application/pdf", "a.pdf", "10"⟩⟩ := by
  have h := presign_failure_nonfatal ⟨"a.pdf", [37, 80, 68, 70, 9, 9, 9, 9, 9, 9]⟩
    ⟨some "key", some "secret", some "bkt", none⟩ "uuid-4" "presign boom" "bkt"
    (by decide) (by decide) (by decide) (by decide) rfl (by decide)
  refine ⟨by decide, by decide, by decide, by decide, rfl, by decide, ?_⟩
  rw [h]
  rfl

/-- C10: on a successful upload, the response's filename field and the
stored object's original-filename metadata are the sanitized filename,
not the declared one, and they differ from the declared filename whenever
sanitization altered it. -/
theorem success_reports_sanitized_filename (file : FilePart) (env : Env)
    (uuid bucket : String) (presign : PresignOutcome)
    (hname : file.filename ≠ "")
    (hext : allowed_file file.filename = true)
    (hmagic : is_pdf_file file.content = true)
    (hsize : file.content.length ≤ MAX_FILE_SIZE)
    (hbucket : env.AWS_S3_BUCKET = some bucket)
    (hbne : bucket ≠ "") :
    ((upload_file none (some file) env uuid .success presign).resp.filenameField
      = some (secure_filename file.filename))
    ∧ ((upload_file none (some file) env uuid .success presign).putReq.map
        PutRequest.meta_original_filename = some (secure_filename file.filename))
    ∧ ((upload_file none (some file) env uuid .success presign).putReq.map
        PutRequest.meta_file_size = some (toString file.content.length))
    ∧ (secure_filename file.filename ≠ file.filename →
        (upload_file none (some file) env uuid .success presign).resp.filenameField
          ≠ some file.filename) := by
  obtain ⟨r, hr⟩ := resolveRegion_isSome env.AWS_REGION
  have hsize2 : ¬ file.content.length > MAX_FILE_SIZE := by omega
  have hred : upload_file none (some file) env uuid .success presign
      = ⟨.ok "File uploaded successfully" (secure_filename file.filename)
          ("pdfs/" ++ uuid ++ "_" ++ secure_filename file.filename)
          (match presign with | .ok url => some url | .exc _ => none)
          file.content.length,
        some ⟨bucket, "pdfs/" ++ uuid ++ "_" ++ secure_filename file.filename,
          "application/pdf", secure_filename file.filename,
          toString file.content.length⟩⟩ := by
    simp [upload_file, hname, hext, hmagic, hsize2, hbucket, hbne,
      get_s3_client, hr]
  refine ⟨by rw [hred]; rfl, by rw [hred]; rfl, by rw [hred]; rfl, ?_⟩
  intro hdiff
  rw [hred]
  simp [Resp.filenameField]
  intro hcontra
  exact hdiff hcontra

theorem success_reports_sanitized_filename_witness :
    ("my file!.pdf" : String) ≠ ""
    ∧ allowed_file "my file!.pdf" = true
    ∧ is_pdf_file [37, 80, 68, 70] = true
    ∧ ([37, 80, 68, 70] : List Nat).length ≤ MAX_FILE_SIZE
    ∧ (Env.mk (some "key") (some "secret") (some "bkt") none).AWS_S3_BUCKET
        = some "bkt"
    ∧ ("bkt" : String) ≠ ""
    ∧ secure_filename "my file!.pdf" = "my_file.pdf"
    ∧ ((upload_file none (some ⟨"my file!.pdf", [37, 80, 68, 70]⟩)
        ⟨some "key", some "secret", some "bkt", none⟩ "uuid-5" .success
        (.ok "url")).resp.filenameField = some "my_file.pdf")
    ∧ ((upload_file none (some ⟨"my file!.pdf", [37, 80, 68, 70]⟩)
        ⟨some "key", some "secret", some "bkt", none⟩ "uuid-5" .success
        (.ok "url")).resp.filenameField ≠ some "my file!.pdf") := by
  have h := success_reports_sanitized_filename
    ⟨"my file!.pdf", [37, 80, 68, 70]⟩
    ⟨some "key", some "secret", some "bkt", none⟩ "uuid-5" "bkt" (.ok "url")
    (by decide) (by decide) (by decide) (by decide) rfl (by decide)
  refine ⟨by decide, by decide, by decide, by decide, rfl, by decide,
    by decide, ?_, h.2.2.2 (by decide)⟩
  rw [h.1]
  decide
